import Mathlib

/-!
# The Guild API — shallow embedding and verification

This file embeds the data model (`app/models.py`) and the workflow
operations (`app/main.py`) of the Guild mission backend as executable Lean
definitions, and proves or refutes the frozen claims about them.

Modelling conventions:
* identifiers (UUIDs in the source) are `Nat`; fresh server-generated ids
  are drawn from a `next_id` counter on the store;
* the relational store is a record of lists, one per table, mirroring the
  SQLAlchemy models;
* each endpoint function returns the store after the request together with
  an `Except ApiError` payload; an `HTTPException` raised after `db.commit()`
  (as in the invite-accept race branch) leaves the committed changes in the
  returned store, while one raised before any commit (or after a rollback)
  returns the store unchanged;
* `ApiError` carries the HTTP status code and detail string exactly as the
  Python code passes them to `HTTPException`.
-/

namespace Guild

/-- `UserRoleEnum` from `app/models.py`. -/
inductive UserRole where
  | Member
  | Manager
  | Admin
deriving DecidableEq, Repr

/-- `SkillProficiencyEnum` from `app/models.py`. -/
inductive Proficiency where
  | Beginner
  | Intermediate
  | Advanced
  | Expert
deriving DecidableEq, Repr

/-- `MissionStatusEnum` from `app/models.py`. -/
inductive MissionStatus where
  | Proposed
  | Active
  | Completed
deriving DecidableEq, Repr

/-- `PitchStatusEnum` from `app/models.py`. -/
inductive PitchStatus where
  | Submitted
  | Accepted
  | Rejected
deriving DecidableEq, Repr

/-- `InviteStatusEnum` from `app/models.py`. -/
inductive InviteStatus where
  | Pending
  | Accepted
  | Declined
deriving DecidableEq, Repr

/-- The `.value` string of a `SkillProficiencyEnum` member. -/
def Proficiency.value : Proficiency → String
  | .Beginner => "Beginner"
  | .Intermediate => "Intermediate"
  | .Advanced => "Advanced"
  | .Expert => "Expert"

/-- `users` table row (`User` in `app/models.py`). -/
structure User where
  id : Nat
  name : String
  email : String
  photo_url : Option String
  title : String
  hashed_password : Option String
  role : UserRole
deriving DecidableEq, Repr

/-- `skills` table row (`Skill` in `app/models.py`). -/
structure Skill where
  id : Nat
  name : String
deriving DecidableEq, Repr

/-- `user_skills` table row (`UserSkill` in `app/models.py`),
composite primary key (user_id, skill_id). -/
structure UserSkill where
  user_id : Nat
  skill_id : Nat
  proficiency : Proficiency
deriving DecidableEq, Repr

/-- `missions` table row (`Mission` in `app/models.py`). -/
structure Mission where
  id : Nat
  title : String
  description : Option String
  lead_user_id : Nat
  status : MissionStatus
deriving DecidableEq, Repr

/-- `mission_roles` table row (`MissionRole` in `app/models.py`). -/
structure MissionRole where
  id : Nat
  mission_id : Nat
  role_description : String
  skill_id_required : Nat
  proficiency_required : Proficiency
  assignee_user_id : Option Nat
deriving DecidableEq, Repr

/-- `mission_pitches` table row (`MissionPitch` in `app/models.py`).
The table declares a primary key on `id` and foreign keys only — there is
no uniqueness constraint over (mission_id, user_id). -/
structure MissionPitch where
  id : Nat
  mission_id : Nat
  user_id : Nat
  pitch_text : String
  status : PitchStatus
deriving DecidableEq, Repr

/-- `mission_invites` table row (`MissionInvite` in `app/models.py`). -/
structure MissionInvite where
  id : Nat
  mission_role_id : Nat
  invited_user_id : Nat
  inviting_user_id : Nat
  status : InviteStatus
  created_at : Nat
deriving DecidableEq, Repr

/-- `notifications` table row (`Notification` in `app/models.py`). -/
structure Notification where
  id : Nat
  user_id : Nat
  message : String
  link : Option String
  is_read : Bool
deriving DecidableEq, Repr

/-- The relational store: one list per table plus a fresh-id counter
standing in for `gen_random_uuid()`. -/
structure DB where
  users : List User
  skills : List Skill
  user_skills : List UserSkill
  missions : List Mission
  mission_roles : List MissionRole
  mission_pitches : List MissionPitch
  mission_invites : List MissionInvite
  notifications : List Notification
  next_id : Nat
deriving DecidableEq, Repr

/-- An `HTTPException(status_code, detail)` as raised in `app/main.py`. -/
structure ApiError where
  status_code : Nat
  detail : String
deriving DecidableEq, Repr

/-- The result of one request: the store after the request (committed
changes included, rolled-back ones excluded) and the HTTP outcome. -/
abbrev Result (α : Type) := DB × Except ApiError α

/-! ## Operations from `app/main.py` -/

/-- `register_user` (`POST /auth/register`). The bcrypt primitive is
external to the core, so the hash function is a parameter. -/
def register_user (hashFn : String → String) (db : DB)
    (name email title : String) (photo_url : Option String)
    (password : String) : Result User :=
  match db.users.find? (fun u => u.email == email) with
  | some _ => (db, .error ⟨400, "Email already registered"⟩)
  | none =>
    let db_user : User :=
      ⟨db.next_id, name, email, photo_url, title, some (hashFn password),
        UserRole.Member⟩
    ({ db with users := db.users ++ [db_user], next_id := db.next_id + 1 },
      .ok db_user)

/-- The `proficiency_hierarchy` list from `search_users_by_skill`. -/
def proficiency_hierarchy : List String :=
  ["Beginner", "Intermediate", "Advanced", "Expert"]

/-- Whether `pat` occurs as a contiguous subsequence of `s`. -/
def containsSub (pat : List Char) : List Char → Bool
  | [] => pat.isEmpty
  | c :: cs => pat.isPrefixOf (c :: cs) || containsSub pat cs

/-- Case-insensitive containment, the semantics of SQL
`ilike '%pat%'` used on the skill name. -/
def ilikeContains (pat s : String) : Bool :=
  containsSub (pat.data.map Char.toLower) (s.data.map Char.toLower)

/-- Whether one `user_skills` row satisfies the join/filter of
`search_users_by_skill` for user `u`: the grant belongs to `u`, its skill
name matches `%skill_name%` case-insensitively, and its proficiency value
lies in the tail of the hierarchy starting at the requested level. -/
def skillRowMatches (db : DB) (skill_name : String) (valid : List String)
    (u : User) (us : UserSkill) : Bool :=
  us.user_id == u.id &&
    (match db.skills.find? (fun s => s.id == us.skill_id) with
      | some s => ilikeContains skill_name s.name
      | none => false) &&
    valid.contains us.proficiency.value

/-- `search_users_by_skill` (`GET /users/search`): join users to their
skill grants and skills, filter by name pattern and by membership of the
proficiency in `proficiency_hierarchy[required_index:]`; the legacy Query
API returns each matching user entity once. -/
def search_users_by_skill (db : DB) (skill_name : String)
    (proficiency : Proficiency) : List User :=
  let required_index := proficiency_hierarchy.indexOf proficiency.value
  let valid := proficiency_hierarchy.drop required_index
  db.users.filter (fun u =>
    db.user_skills.any (skillRowMatches db skill_name valid u))

/-- `pitch_for_mission` (`POST /missions/{mission_id}/pitch`). The
`except IntegrityError` branch translates a constraint violation on commit
into 409; since `mission_pitches` declares only its primary key (no
uniqueness over (mission_id, user_id)), the commit can only fail on a
primary-key collision, which the fresh-id counter rules out. -/
def pitch_for_mission (db : DB) (current_user : User) (mission_id : Nat)
    (pitch_text : String) : Result MissionPitch :=
  match db.missions.find? (fun m => m.id == mission_id) with
  | none => (db, .error ⟨404, "Mission not found"⟩)
  | some db_mission =>
    let db_pitch : MissionPitch :=
      ⟨db.next_id, mission_id, current_user.id, pitch_text,
        PitchStatus.Submitted⟩
    let notif : Notification :=
      ⟨db.next_id + 1, db_mission.lead_user_id,
        "'" ++ current_user.name ++ "' has pitched for your mission: '" ++
          db_mission.title ++ "'.",
        some ("/missions/" ++ toString mission_id), false⟩
    if db.mission_pitches.any (fun q => q.id == db_pitch.id) then
      (db, .error ⟨409, "You have already pitched for this mission."⟩)
    else
      ({ db with
          mission_pitches := db.mission_pitches ++ [db_pitch],
          notifications := db.notifications ++ [notif],
          next_id := db.next_id + 2 },
        .ok db_pitch)

/-- `update_pitch_status` (`PATCH /pitches/{pitch_id}/status`). The single
combined check `not db_pitch or db_pitch.mission.lead_user_id != current_user.id`
yields 404 both when the pitch is absent and when the caller is not the
lead; a dangling mission foreign key would crash the attribute access,
modelled as a 500. -/
def update_pitch_status (db : DB) (current_user : User) (pitch_id : Nat)
    (new_status : PitchStatus) : Result MissionPitch :=
  match db.mission_pitches.find? (fun p => p.id == pitch_id) with
  | none => (db, .error ⟨404, "Pitch not found or not authorized"⟩)
  | some db_pitch =>
    match db.missions.find? (fun m => m.id == db_pitch.mission_id) with
    | none => (db, .error ⟨500, "Internal Server Error"⟩)
    | some mission =>
      if mission.lead_user_id != current_user.id then
        (db, .error ⟨404, "Pitch not found or not authorized"⟩)
      else
        let status_text :=
          if new_status == PitchStatus.Accepted then "accepted"
          else "rejected"
        let notif : Notification :=
          ⟨db.next_id, db_pitch.user_id,
            "Your pitch for the mission '" ++ mission.title ++
              "' has been " ++ status_text ++ ".",
            some ("/missions/" ++ toString db_pitch.mission_id), false⟩
        ({ db with
            mission_pitches := db.mission_pitches.map (fun q =>
              if q.id == pitch_id then { q with status := new_status }
              else q),
            notifications := db.notifications ++ [notif],
            next_id := db.next_id + 1 },
          .ok { db_pitch with status := new_status })

/-- `draft_user_for_role` (`POST /mission-roles/{role_id}/draft`): the
lead unconditionally sets the assignee — there is no check against a prior
assignment — and the drafted user is notified. A missing mission row falls
into the same 403 branch as a non-lead caller, as in the source. -/
def draft_user_for_role (db : DB) (current_user : User) (role_id : Nat)
    (assignee_user_id : Nat) : Result MissionRole :=
  match db.mission_roles.find? (fun r => r.id == role_id) with
  | none => (db, .error ⟨404, "Mission role not found"⟩)
  | some db_role =>
    match db.missions.find? (fun m => m.id == db_role.mission_id) with
    | none => (db, .error ⟨403, "Only the mission lead can draft members."⟩)
    | some mission =>
      if mission.lead_user_id != current_user.id then
        (db, .error ⟨403, "Only the mission lead can draft members."⟩)
      else
        match db.users.find? (fun u => u.id == assignee_user_id) with
        | none => (db, .error ⟨404, "User to be drafted not found"⟩)
        | some _ =>
          let notif : Notification :=
            ⟨db.next_id, assignee_user_id,
              "You have been drafted for the role '" ++
                db_role.role_description ++ "' in the mission: '" ++
                mission.title ++ "'.",
              some ("/missions/" ++ toString mission.id), false⟩
          ({ db with
              mission_roles := db.mission_roles.map (fun r =>
                if r.id == role_id then
                  { r with assignee_user_id := some assignee_user_id }
                else r),
              notifications := db.notifications ++ [notif],
              next_id := db.next_id + 1 },
            .ok { db_role with assignee_user_id := some assignee_user_id })

/-- `get_my_invitations` (`GET /invites/me`): invites of the caller with
status Pending, ordered by `created_at` descending. The SQL sort is
modelled by insertion sort on the filtered rows. -/
def insertByCreatedDesc (i : MissionInvite) :
    List MissionInvite → List MissionInvite
  | [] => [i]
  | j :: js =>
    if j.created_at ≤ i.created_at then i :: j :: js
    else j :: insertByCreatedDesc i js

/-- Sort a list of invites by `created_at` descending (newest first). -/
def sortByCreatedDesc : List MissionInvite → List MissionInvite
  | [] => []
  | i :: is => insertByCreatedDesc i (sortByCreatedDesc is)

/-- `get_my_invitations` (`GET /invites/me`). -/
def get_my_invitations (db : DB) (current_user : User) :
    List MissionInvite :=
  sortByCreatedDesc (db.mission_invites.filter (fun i =>
    i.invited_user_id == current_user.id &&
      i.status == InviteStatus.Pending))

/-- `create_invite` (`POST /invites`): checks, in order — role exists
(404), caller is the role's mission lead (403), role unfilled (400),
invited user exists (404), no Pending invite for the same (role, user)
(409) — then inserts the invite and one notification to the candidate. -/
def create_invite (db : DB) (current_user : User)
    (mission_role_id invited_user_id : Nat) : Result MissionInvite :=
  match db.mission_roles.find? (fun r => r.id == mission_role_id) with
  | none => (db, .error ⟨404, "Mission role not found"⟩)
  | some db_role =>
    match db.missions.find? (fun m => m.id == db_role.mission_id) with
    | none => (db, .error ⟨500, "Internal Server Error"⟩)
    | some mission =>
      if mission.lead_user_id != current_user.id then
        (db, .error ⟨403, "You are not the lead of this mission"⟩)
      else if db_role.assignee_user_id.isSome then
        (db, .error ⟨400, "This role is already filled"⟩)
      else
        match db.users.find? (fun u => u.id == invited_user_id) with
        | none => (db, .error ⟨404, "User to be invited not found"⟩)
        | some _ =>
          if db.mission_invites.any (fun i =>
              i.mission_role_id == mission_role_id &&
                i.invited_user_id == invited_user_id &&
                i.status == InviteStatus.Pending) then
            (db, .error ⟨409,
              "A pending invite for this user to this role already exists"⟩)
          else
            let db_invite : MissionInvite :=
              ⟨db.next_id, mission_role_id, invited_user_id,
                current_user.id, InviteStatus.Pending, db.next_id⟩
            let notif : Notification :=
              ⟨db.next_id + 1, invited_user_id,
                "'" ++ current_user.name ++
                  "' has invited you to join the mission '" ++
                  mission.title ++ "' as '" ++ db_role.role_description ++
                  "'.",
                some "/invites", false⟩
            ({ db with
                mission_invites := db.mission_invites ++ [db_invite],
                notifications := db.notifications ++ [notif],
                next_id := db.next_id + 2 },
              .ok db_invite)

/-- `respond_to_invite` (`PATCH /invites/{invite_id}`). Absent invite and
wrong caller share one 404; a non-Pending invite yields 400; on Accept the
role's assignee is re-read — if filled, the invite is forced to Declined,
the caller is notified, the change is committed, and 409 is raised; if
free, the role is assigned, the invite Accepted and the inviting user
notified. On Decline the invite is Declined and the inviting user
notified. Any other requested status yields 400. -/
def respond_to_invite (db : DB) (current_user : User) (invite_id : Nat)
    (response_status : InviteStatus) : Result MissionInvite :=
  match db.mission_invites.find? (fun i => i.id == invite_id) with
  | none => (db, .error ⟨404, "Invite not found or you are not authorized"⟩)
  | some db_invite =>
    if db_invite.invited_user_id != current_user.id then
      (db, .error ⟨404, "Invite not found or you are not authorized"⟩)
    else if db_invite.status != InviteStatus.Pending then
      (db, .error ⟨400, "This invitation has already been responded to"⟩)
    else
      match db.mission_roles.find? (fun r =>
          r.id == db_invite.mission_role_id) with
      | none => (db, .error ⟨500, "Internal Server Error"⟩)
      | some role =>
        match db.missions.find? (fun m => m.id == role.mission_id) with
        | none => (db, .error ⟨500, "Internal Server Error"⟩)
        | some mission =>
          match response_status with
          | InviteStatus.Accepted =>
            match role.assignee_user_id with
            | some _ =>
              let notif : Notification :=
                ⟨db.next_id, current_user.id,
                  "Your acceptance for '" ++ mission.title ++
                    "' could not be processed as the role was filled.",
                  none, false⟩
              ({ db with
                  mission_invites := db.mission_invites.map (fun i =>
                    if i.id == invite_id then
                      { i with status := InviteStatus.Declined }
                    else i),
                  notifications := db.notifications ++ [notif],
                  next_id := db.next_id + 1 },
                .error ⟨409, "This role has already been filled."⟩)
            | none =>
              let notif : Notification :=
                ⟨db.next_id, db_invite.inviting_user_id,
                  "'" ++ current_user.name ++
                    "' has accepted your invitation to join '" ++
                    mission.title ++ "'.",
                  some ("/missions/" ++ toString role.mission_id), false⟩
              ({ db with
                  mission_roles := db.mission_roles.map (fun r =>
                    if r.id == db_invite.mission_role_id then
                      { r with assignee_user_id := some current_user.id }
                    else r),
                  mission_invites := db.mission_invites.map (fun i =>
                    if i.id == invite_id then
                      { i with status := InviteStatus.Accepted }
                    else i),
                  notifications := db.notifications ++ [notif],
                  next_id := db.next_id + 1 },
                .ok { db_invite with status := InviteStatus.Accepted })
          | InviteStatus.Declined =>
            let notif : Notification :=
              ⟨db.next_id, db_invite.inviting_user_id,
                "'" ++ current_user.name ++
                  "' has declined your invitation to join '" ++
                  mission.title ++ "'.",
                none, false⟩
            ({ db with
                mission_invites := db.mission_invites.map (fun i =>
                  if i.id == invite_id then
                    { i with status := InviteStatus.Declined }
                  else i),
                notifications := db.notifications ++ [notif],
                next_id := db.next_id + 1 },
              .ok { db_invite with status := InviteStatus.Declined })
          | InviteStatus.Pending =>
            (db, .error ⟨400, "Invalid status update"⟩)

/-! ## Helper notions used by the theorems -/

/-- The rank of a proficiency on the spec's ordered scale
Beginner < Intermediate < Advanced < Expert. -/
def profRank : Proficiency → Nat
  | .Beginner => 0
  | .Intermediate => 1
  | .Advanced => 2
  | .Expert => 3

/-- Membership of a proficiency value in the tail of the hierarchy list
starting at the threshold coincides with the rank comparison. -/
theorem hierarchy_drop_contains (t p : Proficiency) :
    (proficiency_hierarchy.drop
        (proficiency_hierarchy.indexOf t.value)).contains p.value =
      decide (profRank t ≤ profRank p) := by
  cases t <;> cases p <;> rfl

/-- Unfolding the match on the skill lookup inside `skillRowMatches`. -/
theorem find_skill_match_iff (db : DB) (q : String) (us : UserSkill) :
    ((match db.skills.find? (fun s => s.id == us.skill_id) with
      | some s => ilikeContains q s.name
      | none => false) = true) ↔
      ∃ s, db.skills.find? (fun s2 => s2.id == us.skill_id) = some s ∧
        ilikeContains q s.name = true := by
  cases h : db.skills.find? (fun s => s.id == us.skill_id) <;> simp [h]

/-- One row of the search join passes the filter iff it is a grant of the
user whose skill matches the pattern and whose rank clears the floor. -/
theorem skillRowMatches_iff (db : DB) (q : String) (t : Proficiency)
    (u : User) (us : UserSkill) :
    skillRowMatches db q
        (proficiency_hierarchy.drop
          (proficiency_hierarchy.indexOf t.value)) u us = true ↔
      us.user_id = u.id ∧
        (∃ s, db.skills.find? (fun s2 => s2.id == us.skill_id) = some s ∧
          ilikeContains q s.name = true) ∧
        profRank t ≤ profRank us.proficiency := by
  rw [skillRowMatches, Bool.and_eq_true, Bool.and_eq_true,
    hierarchy_drop_contains]
  simp only [beq_iff_eq, decide_eq_true_eq, find_skill_match_iff, and_assoc]

/-! ## Claims -/

/-- C7: for every query and threshold, the user search returns exactly the
users holding a grant whose skill name contains the query
case-insensitively and whose rank clears the threshold on the scale
Beginner < Intermediate < Advanced < Expert; threshold Advanced admits
only Advanced and Expert grants, threshold Beginner admits all. -/
theorem search_users_by_skill_spec (db : DB) (q : String) (t : Proficiency) :
    (∀ u, u ∈ search_users_by_skill db q t ↔
      u ∈ db.users ∧ ∃ us ∈ db.user_skills, us.user_id = u.id ∧
        (∃ s, db.skills.find? (fun s2 => s2.id == us.skill_id) = some s ∧
          ilikeContains q s.name = true) ∧
        profRank t ≤ profRank us.proficiency) ∧
    (∀ p : Proficiency, profRank Proficiency.Advanced ≤ profRank p ↔
      p = Proficiency.Advanced ∨ p = Proficiency.Expert) ∧
    (∀ p : Proficiency, profRank Proficiency.Beginner ≤ profRank p) := by
  refine ⟨?_, ?_, ?_⟩
  · intro u
    rw [search_users_by_skill, List.mem_filter, List.any_eq_true]
    constructor
    · rintro ⟨hu, us, hus, hmatch⟩
      exact ⟨hu, us, hus, (skillRowMatches_iff db q t u us).mp hmatch⟩
    · rintro ⟨hu, us, hus, hprops⟩
      exact ⟨hu, us, hus, (skillRowMatches_iff db q t u us).mpr hprops⟩
  · intro p
    cases p <;> simp [profRank]
  · intro p
    cases p <;> simp [profRank]

/-- Membership is preserved by the descending insertion. -/
theorem mem_insertByCreatedDesc (i j : MissionInvite)
    (l : List MissionInvite) :
    j ∈ insertByCreatedDesc i l ↔ j = i ∨ j ∈ l := by
  induction l with
  | nil => simp [insertByCreatedDesc]
  | cons k ks ih =>
    rw [insertByCreatedDesc]
    split
    · simp
    · simp only [List.mem_cons, ih]
      tauto

/-- Newest-first order: each element dominates all later ones. -/
def NewestFirst (l : List MissionInvite) : Prop :=
  l.Pairwise (fun a b => b.created_at ≤ a.created_at)

/-- Descending insertion preserves the newest-first order. -/
theorem newestFirst_insertByCreatedDesc (i : MissionInvite)
    (l : List MissionInvite) (h : NewestFirst l) :
    NewestFirst (insertByCreatedDesc i l) := by
  induction l with
  | nil => simp [insertByCreatedDesc, NewestFirst]
  | cons k ks ih =>
    rw [NewestFirst] at h
    rw [List.pairwise_cons] at h
    rw [insertByCreatedDesc]
    split
    · rename_i hk
      rw [NewestFirst, List.pairwise_cons]
      refine ⟨?_, h.2.cons h.1⟩
      intro b hb
      rcases List.mem_cons.mp hb with rfl | hb
      · exact hk
      · exact le_trans (h.1 b hb) hk
    · rename_i hk
      rw [NewestFirst, List.pairwise_cons]
      refine ⟨?_, ih h.2⟩
      intro b hb
      rcases (mem_insertByCreatedDesc i b ks).mp hb with rfl | hb
      · exact le_of_not_le hk
      · exact h.1 b hb

/-- Sorting preserves membership. -/
theorem mem_sortByCreatedDesc (j : MissionInvite) (l : List MissionInvite) :
    j ∈ sortByCreatedDesc l ↔ j ∈ l := by
  induction l with
  | nil => simp [sortByCreatedDesc]
  | cons k ks ih =>
    rw [sortByCreatedDesc, mem_insertByCreatedDesc]
    simp [ih]

/-- The sort output is newest first. -/
theorem newestFirst_sortByCreatedDesc (l : List MissionInvite) :
    NewestFirst (sortByCreatedDesc l) := by
  induction l with
  | nil => exact List.Pairwise.nil
  | cons k ks ih => exact newestFirst_insertByCreatedDesc k _ ih

/-- C10: the list-my-invites operation returns exactly the caller's
Pending invites (Accepted and Declined ones never appear), ordered newest
first by creation time. -/
theorem get_my_invitations_spec (db : DB) (current_user : User) :
    (∀ i, i ∈ get_my_invitations db current_user ↔
      i ∈ db.mission_invites ∧ i.invited_user_id = current_user.id ∧
        i.status = InviteStatus.Pending) ∧
    NewestFirst (get_my_invitations db current_user) := by
  constructor
  · intro i
    rw [get_my_invitations, mem_sortByCreatedDesc, List.mem_filter]
    simp [and_assoc]
  · exact newestFirst_sortByCreatedDesc _

/-- C1: accepting a Pending invite whose role already has an assignee
forces the invite to Declined, appends one notification to the invited
user referencing the conflict, fails with 409 Conflict, and leaves the
role's assignee (and every role row) unchanged. -/
theorem respond_accept_filled_conflict (db : DB) (cu : User) (iid : Nat)
    (inv : MissionInvite) (role : MissionRole) (mission : Mission) (a : Nat)
    (h1 : db.mission_invites.find? (fun i => i.id == iid) = some inv)
    (h2 : inv.invited_user_id = cu.id)
    (h3 : inv.status = InviteStatus.Pending)
    (h4 : db.mission_roles.find? (fun r => r.id == inv.mission_role_id) =
      some role)
    (h5 : db.missions.find? (fun m => m.id == role.mission_id) =
      some mission)
    (h6 : role.assignee_user_id = some a) :
    respond_to_invite db cu iid InviteStatus.Accepted =
      ({ db with
          mission_invites := db.mission_invites.map (fun i =>
            if i.id == iid then { i with status := InviteStatus.Declined }
            else i),
          notifications := db.notifications ++
            [⟨db.next_id, cu.id,
              "Your acceptance for '" ++ mission.title ++
                "' could not be processed as the role was filled.",
              none, false⟩],
          next_id := db.next_id + 1 },
        .error ⟨409, "This role has already been filled."⟩) ∧
      (respond_to_invite db cu iid InviteStatus.Accepted).1.mission_roles =
        db.mission_roles := by
  simp [respond_to_invite, h1, h2, h3, h4, h5, h6]

/-- Witness for C1 at a concrete store: mission 1 led by user 2, role 10
already assigned to user 4, Pending invite 20 for user 3. -/
def dbC1 : DB :=
  { users :=
      [⟨2, "Lena", "lena@x", none, "Lead", none, UserRole.Manager⟩,
        ⟨3, "Cass", "cass@x", none, "Member", none, UserRole.Member⟩,
        ⟨4, "Dara", "dara@x", none, "Member", none, UserRole.Member⟩],
    skills := [⟨50, "Welding"⟩],
    user_skills := [],
    missions := [⟨1, "Harvest", none, 2, MissionStatus.Proposed⟩],
    mission_roles := [⟨10, 1, "Welder", 50, Proficiency.Advanced, some 4⟩],
    mission_pitches := [],
    mission_invites := [⟨20, 10, 3, 2, InviteStatus.Pending, 5⟩],
    notifications := [],
    next_id := 100 }

/-- The user with id 3 in `dbC1`. -/
def userCass : User := ⟨3, "Cass", "cass@x", none, "Member", none,
  UserRole.Member⟩

theorem respond_accept_filled_conflict_witness :
    respond_to_invite dbC1 userCass 20 InviteStatus.Accepted =
      ({ dbC1 with
          mission_invites := dbC1.mission_invites.map (fun i =>
            if i.id == 20 then { i with status := InviteStatus.Declined }
            else i),
          notifications := dbC1.notifications ++
            [⟨dbC1.next_id, userCass.id,
              "Your acceptance for '" ++ "Harvest" ++
                "' could not be processed as the role was filled.",
              none, false⟩],
          next_id := dbC1.next_id + 1 },
        .error ⟨409, "This role has already been filled."⟩) ∧
      (respond_to_invite dbC1 userCass 20 InviteStatus.Accepted).1.mission_roles =
        dbC1.mission_roles :=
  respond_accept_filled_conflict dbC1 userCass 20
    ⟨20, 10, 3, 2, InviteStatus.Pending, 5⟩
    ⟨10, 1, "Welder", 50, Proficiency.Advanced, some 4⟩
    ⟨1, "Harvest", none, 2, MissionStatus.Proposed⟩ 4
    rfl rfl rfl rfl rfl rfl

/-- C3: creating an invite against a role that already has an assignee
fails with 400 BadRequest and leaves the whole store unchanged — no
invite row and no notification is created. -/
theorem create_invite_filled_role_bad_request (db : DB) (cu : User)
    (rid uid : Nat) (role : MissionRole) (mission : Mission)
    (h1 : db.mission_roles.find? (fun r => r.id == rid) = some role)
    (h2 : db.missions.find? (fun m => m.id == role.mission_id) =
      some mission)
    (h3 : mission.lead_user_id = cu.id)
    (h4 : role.assignee_user_id.isSome = true) :
    create_invite db cu rid uid =
      (db, .error ⟨400, "This role is already filled"⟩) := by
  simp [create_invite, h1, h2, h3, h4]

/-- The user with id 2 in `dbC1` (the mission lead). -/
def userLena : User := ⟨2, "Lena", "lena@x", none, "Lead", none,
  UserRole.Manager⟩

theorem create_invite_filled_role_bad_request_witness :
    create_invite dbC1 userLena 10 3 =
      (dbC1, .error ⟨400, "This role is already filled"⟩) :=
  create_invite_filled_role_bad_request dbC1 userLena 10 3
    ⟨10, 1, "Welder", 50, Proficiency.Advanced, some 4⟩
    ⟨1, "Harvest", none, 2, MissionStatus.Proposed⟩
    rfl rfl rfl rfl

/-- A store holding an existing pitch (id 30) by user 3 on mission 1. -/
def dbC2 : DB :=
  { users :=
      [⟨2, "Lena", "lena@x", none, "Lead", none, UserRole.Manager⟩,
        ⟨3, "Cass", "cass@x", none, "Member", none, UserRole.Member⟩],
    skills := [],
    user_skills := [],
    missions := [⟨1, "Harvest", none, 2, MissionStatus.Proposed⟩],
    mission_roles := [],
    mission_pitches := [⟨30, 1, 3, "first pitch", PitchStatus.Submitted⟩],
    mission_invites := [],
    notifications := [],
    next_id := 100 }

/-- C2 (code bug): `models.py` declares no uniqueness constraint over
(mission_id, user_id) on `mission_pitches`, so the `IntegrityError`
handler in `pitch_for_mission` never fires for a duplicate: a second
pitch by the same user for the same mission commits successfully — the
store ends up with two pitches for the pair instead of the 409 Conflict
the spec requires. -/
theorem duplicate_pitch_commits :
    (pitch_for_mission dbC2 userCass 1 "second pitch").2 =
      .ok ⟨100, 1, 3, "second pitch", PitchStatus.Submitted⟩ ∧
      (pitch_for_mission dbC2 userCass 1 "second pitch").1.mission_pitches =
        [⟨30, 1, 3, "first pitch", PitchStatus.Submitted⟩,
          ⟨100, 1, 3, "second pitch", PitchStatus.Submitted⟩] := by
  constructor <;> rfl

/-- C4 counterexample: pitch 30 exists in `dbC2` and its mission's lead
is user 2, yet when user 3 (not the lead) tries to accept it the
operation reports 404 NotFound — not 403 Forbidden as the claim
requires for an existing resource with a non-owning actor. -/
theorem update_pitch_status_nonlead_404 :
    (⟨30, 1, 3, "first pitch", PitchStatus.Submitted⟩ : MissionPitch) ∈
      dbC2.mission_pitches ∧
    userCass.id ≠ 2 ∧
    update_pitch_status dbC2 userCass 30 PitchStatus.Accepted =
      (dbC2, .error ⟨404, "Pitch not found or not authorized"⟩) ∧
    (404 : Nat) ≠ 403 := by
  refine ⟨by decide, by decide, rfl, by decide⟩

/-- C4 amended: for pitch accept/reject and invite respond, a missing
resource fails with 404 NotFound, and an existing resource whose owning
relation does not include the caller also fails with the same 404
(detail "... not found or not authorized"), never 403 Forbidden; the
store is unchanged in all four cases. -/
theorem resource_mutation_notfound_semantics :
    (∀ (db : DB) (cu : User) (pid : Nat) (st : PitchStatus),
      db.mission_pitches.find? (fun p => p.id == pid) = none →
      update_pitch_status db cu pid st =
        (db, .error ⟨404, "Pitch not found or not authorized"⟩)) ∧
    (∀ (db : DB) (cu : User) (pid : Nat) (st : PitchStatus)
      (p : MissionPitch) (m : Mission),
      db.mission_pitches.find? (fun q => q.id == pid) = some p →
      db.missions.find? (fun mm => mm.id == p.mission_id) = some m →
      m.lead_user_id ≠ cu.id →
      update_pitch_status db cu pid st =
        (db, .error ⟨404, "Pitch not found or not authorized"⟩)) ∧
    (∀ (db : DB) (cu : User) (iid : Nat) (st : InviteStatus),
      db.mission_invites.find? (fun i => i.id == iid) = none →
      respond_to_invite db cu iid st =
        (db, .error ⟨404, "Invite not found or you are not authorized"⟩)) ∧
    (∀ (db : DB) (cu : User) (iid : Nat) (st : InviteStatus)
      (inv : MissionInvite),
      db.mission_invites.find? (fun i => i.id == iid) = some inv →
      inv.invited_user_id ≠ cu.id →
      respond_to_invite db cu iid st =
        (db, .error ⟨404, "Invite not found or you are not authorized"⟩)) := by
  refine ⟨?_, ?_, ?_, ?_⟩
  · intro db cu pid st h
    simp [update_pitch_status, h]
  · intro db cu pid st p m h1 h2 h3
    simp [update_pitch_status, h1, h2, h3]
  · intro db cu iid st h
    simp [respond_to_invite, h]
  · intro db cu iid st inv h1 h2
    simp [respond_to_invite, h1, h2]

theorem resource_mutation_notfound_semantics_witness :
    update_pitch_status dbC2 userCass 30 PitchStatus.Accepted =
      (dbC2, .error ⟨404, "Pitch not found or not authorized"⟩) ∧
    respond_to_invite dbC1 userLena 20 InviteStatus.Declined =
      (dbC1, .error ⟨404, "Invite not found or you are not authorized"⟩) :=
  ⟨resource_mutation_notfound_semantics.2.1 dbC2 userCass 30
      PitchStatus.Accepted
      ⟨30, 1, 3, "first pitch", PitchStatus.Submitted⟩
      ⟨1, "Harvest", none, 2, MissionStatus.Proposed⟩
      rfl rfl (by decide),
    resource_mutation_notfound_semantics.2.2.2 dbC1 userLena 20
      InviteStatus.Declined
      ⟨20, 10, 3, 2, InviteStatus.Pending, 5⟩
      rfl (by decide)⟩

/-- `dbC2` with pitch 30 already in the terminal Accepted state. -/
def dbC5 : DB :=
  { dbC2 with
      mission_pitches := [⟨30, 1, 3, "first pitch", PitchStatus.Accepted⟩] }

/-- C5 counterexample: pitch 30 is Accepted, yet a further lead call
flips it to Rejected and reports success — Accepted is not terminal. -/
theorem accepted_pitch_status_changed_again :
    dbC5.mission_pitches.find? (fun p => p.id == 30) =
      some ⟨30, 1, 3, "first pitch", PitchStatus.Accepted⟩ ∧
    (update_pitch_status dbC5 userLena 30 PitchStatus.Rejected).2 =
      .ok ⟨30, 1, 3, "first pitch", PitchStatus.Rejected⟩ ∧
    (update_pitch_status dbC5 userLena 30
        PitchStatus.Rejected).1.mission_pitches.find?
        (fun p => p.id == 30) =
      some ⟨30, 1, 3, "first pitch", PitchStatus.Rejected⟩ := by
  refine ⟨rfl, rfl, rfl⟩

/-- C5 amended: `update_pitch_status` carries no guard on the current
status — whenever the pitch exists and the caller is its mission's lead,
the requested status is applied (and the pitcher notified) regardless of
whether the pitch is Submitted, Accepted or Rejected; terminality of
Accepted/Rejected is not enforced. -/
theorem update_pitch_status_ignores_current_status (db : DB) (cu : User)
    (pid : Nat) (st : PitchStatus) (p : MissionPitch) (m : Mission)
    (h1 : db.mission_pitches.find? (fun q => q.id == pid) = some p)
    (h2 : db.missions.find? (fun mm => mm.id == p.mission_id) = some m)
    (h3 : m.lead_user_id = cu.id) :
    update_pitch_status db cu pid st =
      ({ db with
          mission_pitches := db.mission_pitches.map (fun q =>
            if q.id == pid then { q with status := st } else q),
          notifications := db.notifications ++
            [⟨db.next_id, p.user_id,
              "Your pitch for the mission '" ++ m.title ++
                "' has been " ++
                (if st == PitchStatus.Accepted then "accepted"
                  else "rejected") ++ ".",
              some ("/missions/" ++ toString p.mission_id), false⟩],
          next_id := db.next_id + 1 },
        .ok { p with status := st }) := by
  simp [update_pitch_status, h1, h2, h3]

theorem update_pitch_status_ignores_current_status_witness :
    update_pitch_status dbC5 userLena 30 PitchStatus.Rejected =
      ({ dbC5 with
          mission_pitches := dbC5.mission_pitches.map (fun q =>
            if q.id == 30 then { q with status := PitchStatus.Rejected }
            else q),
          notifications := dbC5.notifications ++
            [⟨dbC5.next_id, 3,
              "Your pitch for the mission '" ++ "Harvest" ++
                "' has been " ++
                (if PitchStatus.Rejected == PitchStatus.Accepted then
                  "accepted" else "rejected") ++ ".",
              some ("/missions/" ++ toString 1), false⟩],
          next_id := dbC5.next_id + 1 },
        .ok ⟨30, 1, 3, "first pitch", PitchStatus.Rejected⟩) :=
  update_pitch_status_ignores_current_status dbC5 userLena 30
    PitchStatus.Rejected
    ⟨30, 1, 3, "first pitch", PitchStatus.Accepted⟩
    ⟨1, "Harvest", none, 2, MissionStatus.Proposed⟩
    rfl rfl rfl

/-- C6: accepting a pitch flips only that pitch's status to Accepted and
appends exactly one notification, addressed to the pitcher; every other
pitch row, and the role, mission, user, skill, grant and invite tables,
are unchanged. -/
theorem accept_pitch_frame (db : DB) (cu : User) (pid : Nat)
    (p : MissionPitch) (m : Mission)
    (h1 : db.mission_pitches.find? (fun q => q.id == pid) = some p)
    (h2 : db.missions.find? (fun mm => mm.id == p.mission_id) = some m)
    (h3 : m.lead_user_id = cu.id) :
    (update_pitch_status db cu pid PitchStatus.Accepted).2 =
      .ok { p with status := PitchStatus.Accepted } ∧
    (update_pitch_status db cu pid
        PitchStatus.Accepted).1.mission_pitches =
      db.mission_pitches.map (fun q =>
        if q.id == pid then { q with status := PitchStatus.Accepted }
        else q) ∧
    (∀ q ∈ db.mission_pitches, q.id ≠ pid →
      q ∈ (update_pitch_status db cu pid
        PitchStatus.Accepted).1.mission_pitches) ∧
    (update_pitch_status db cu pid PitchStatus.Accepted).1.notifications =
      db.notifications ++
        [⟨db.next_id, p.user_id,
          "Your pitch for the mission '" ++ m.title ++
            "' has been " ++ "accepted" ++ ".",
          some ("/missions/" ++ toString p.mission_id), false⟩] ∧
    (update_pitch_status db cu pid PitchStatus.Accepted).1.mission_roles =
      db.mission_roles ∧
    (update_pitch_status db cu pid PitchStatus.Accepted).1.missions =
      db.missions ∧
    (update_pitch_status db cu pid PitchStatus.Accepted).1.users =
      db.users ∧
    (update_pitch_status db cu pid PitchStatus.Accepted).1.skills =
      db.skills ∧
    (update_pitch_status db cu pid PitchStatus.Accepted).1.user_skills =
      db.user_skills ∧
    (update_pitch_status db cu pid
        PitchStatus.Accepted).1.mission_invites =
      db.mission_invites := by
  have hmain : update_pitch_status db cu pid PitchStatus.Accepted =
      ({ db with
          mission_pitches := db.mission_pitches.map (fun q =>
            if q.id == pid then { q with status := PitchStatus.Accepted }
            else q),
          notifications := db.notifications ++
            [⟨db.next_id, p.user_id,
              "Your pitch for the mission '" ++ m.title ++
                "' has been " ++ "accepted" ++ ".",
              some ("/missions/" ++ toString p.mission_id), false⟩],
          next_id := db.next_id + 1 },
        .ok { p with status := PitchStatus.Accepted }) := by
    simp [update_pitch_status, h1, h2, h3]
  rw [hmain]
  refine ⟨rfl, rfl, ?_, rfl, rfl, rfl, rfl, rfl, rfl, rfl⟩
  intro q hq hne
  exact List.mem_map.mpr ⟨q, hq, by simp [hne]⟩

theorem accept_pitch_frame_witness :
    (update_pitch_status dbC2 userLena 30 PitchStatus.Accepted).2 =
      .ok ⟨30, 1, 3, "first pitch", PitchStatus.Accepted⟩ ∧
    (update_pitch_status dbC2 userLena 30
        PitchStatus.Accepted).1.mission_pitches =
      dbC2.mission_pitches.map (fun q =>
        if q.id == 30 then { q with status := PitchStatus.Accepted }
        else q) ∧
    (∀ q ∈ dbC2.mission_pitches, q.id ≠ 30 →
      q ∈ (update_pitch_status dbC2 userLena 30
        PitchStatus.Accepted).1.mission_pitches) ∧
    (update_pitch_status dbC2 userLena 30
        PitchStatus.Accepted).1.notifications =
      dbC2.notifications ++
        [⟨dbC2.next_id, 3,
          "Your pitch for the mission '" ++ "Harvest" ++
            "' has been " ++ "accepted" ++ ".",
          some ("/missions/" ++ toString 1), false⟩] ∧
    (update_pitch_status dbC2 userLena 30
        PitchStatus.Accepted).1.mission_roles = dbC2.mission_roles ∧
    (update_pitch_status dbC2 userLena 30
        PitchStatus.Accepted).1.missions = dbC2.missions ∧
    (update_pitch_status dbC2 userLena 30
        PitchStatus.Accepted).1.users = dbC2.users ∧
    (update_pitch_status dbC2 userLena 30
        PitchStatus.Accepted).1.skills = dbC2.skills ∧
    (update_pitch_status dbC2 userLena 30
        PitchStatus.Accepted).1.user_skills = dbC2.user_skills ∧
    (update_pitch_status dbC2 userLena 30
        PitchStatus.Accepted).1.mission_invites = dbC2.mission_invites :=
  accept_pitch_frame dbC2 userLena 30
    ⟨30, 1, 3, "first pitch", PitchStatus.Submitted⟩
    ⟨1, "Harvest", none, 2, MissionStatus.Proposed⟩
    rfl rfl rfl

/-- A concrete stand-in for the external one-way hash primitive. -/
def hashDemo : String → String := fun p => "bcrypt$" ++ p

/-- C8 counterexample: registering with the already-present email
"cass@x" fails with status 400 (BadRequest in the §7 taxonomy, where
Conflict is 409 as used by the duplicate-pitch and duplicate-invite
paths), not the 409 Conflict the claim requires. -/
theorem register_duplicate_email_400 :
    (∃ u ∈ dbC2.users, u.email = "cass@x") ∧
    register_user hashDemo dbC2 "Eve" "cass@x" "Impostor" none "pw" =
      (dbC2, .error ⟨400, "Email already registered"⟩) ∧
    (400 : Nat) ≠ 409 := by
  refine ⟨⟨⟨3, "Cass", "cass@x", none, "Member", none, UserRole.Member⟩,
    by decide, rfl⟩, rfl, by decide⟩

/-- C8 amended: registration with an email already in the store fails
with 400 BadRequest (not 409 Conflict) and creates no user record; a
successful registration appends exactly one user whose stored credential
is the hash of the password — the row (mirroring the `users` table)
carries no plaintext password field at all. -/
theorem register_user_spec (hashFn : String → String) (db : DB)
    (name email title : String) (photo : Option String) (pw : String) :
    (∀ u, db.users.find? (fun v => v.email == email) = some u →
      register_user hashFn db name email title photo pw =
        (db, .error ⟨400, "Email already registered"⟩)) ∧
    (db.users.find? (fun v => v.email == email) = none →
      register_user hashFn db name email title photo pw =
        ({ db with
            users := db.users ++
              [⟨db.next_id, name, email, photo, title, some (hashFn pw),
                UserRole.Member⟩],
            next_id := db.next_id + 1 },
          .ok ⟨db.next_id, name, email, photo, title, some (hashFn pw),
            UserRole.Member⟩)) := by
  constructor
  · intro u h
    simp [register_user, h]
  · intro h
    simp [register_user, h]

theorem register_user_spec_witness :
    register_user hashDemo dbC2 "Eve" "cass@x" "Impostor" none "pw" =
      (dbC2, .error ⟨400, "Email already registered"⟩) ∧
    register_user hashDemo dbC2 "Noa" "noa@x" "Member" none "s3cret" =
      ({ dbC2 with
          users := dbC2.users ++
            [⟨dbC2.next_id, "Noa", "noa@x", none, "Member",
              some (hashDemo "s3cret"), UserRole.Member⟩],
          next_id := dbC2.next_id + 1 },
        .ok ⟨dbC2.next_id, "Noa", "noa@x", none, "Member",
          some (hashDemo "s3cret"), UserRole.Member⟩) :=
  ⟨(register_user_spec hashDemo dbC2 "Eve" "cass@x" "Impostor" none
      "pw").1 ⟨3, "Cass", "cass@x", none, "Member", none, UserRole.Member⟩
      rfl,
    (register_user_spec hashDemo dbC2 "Noa" "noa@x" "Member" none
      "s3cret").2 rfl⟩

/-- `dbC1` with role 10 still unfilled: the starting point for the
two-sequential-fills scenario. -/
def dbC9 : DB :=
  { dbC1 with
      mission_roles := [⟨10, 1, "Welder", 50, Proficiency.Advanced, none⟩] }

/-- The store after candidate 3 accepts invite 20 against `dbC9`. -/
def dbC9afterAccept : DB :=
  (respond_to_invite dbC9 userCass 20 InviteStatus.Accepted).1

/-- C9 counterexample: with role 10 initially free, candidate 3's
invite-accept succeeds and assigns them — then the lead's direct draft of
user 4 against the same role also reports success and overwrites the
assignee; two fill operations on one role both succeeded, the displaced
user 3 received no Conflict and no notification (the store holds no
notification addressed to them at all): a silent no-op for the loser. -/
theorem sequential_fills_both_succeed :
    (respond_to_invite dbC9 userCass 20 InviteStatus.Accepted).2 =
      .ok ⟨20, 10, 3, 2, InviteStatus.Accepted, 5⟩ ∧
    dbC9afterAccept.mission_roles.find? (fun r => r.id == 10) =
      some ⟨10, 1, "Welder", 50, Proficiency.Advanced, some 3⟩ ∧
    (draft_user_for_role dbC9afterAccept userLena 10 4).2 =
      .ok ⟨10, 1, "Welder", 50, Proficiency.Advanced, some 4⟩ ∧
    (draft_user_for_role dbC9afterAccept userLena 10
        4).1.mission_roles.find? (fun r => r.id == 10) =
      some ⟨10, 1, "Welder", 50, Proficiency.Advanced, some 4⟩ ∧
    (draft_user_for_role dbC9afterAccept userLena 10
        4).1.notifications.filter (fun n => n.user_id == 3) = [] := by
  refine ⟨rfl, rfl, rfl, rfl, rfl⟩

/-- C9 amended: of two sequential fill operations against one role, a
second invite-accept loses cleanly — 409 Conflict and a forced decline —
but a second direct draft always wins: it succeeds unconditionally,
silently overwrites any existing assignee, and notifies only the newly
drafted user, so the displaced assignee gets no conflict signal. -/
theorem fill_overwrite_semantics :
    (∀ (db : DB) (cu : User) (iid : Nat) (inv : MissionInvite)
      (role : MissionRole) (mission : Mission) (a : Nat),
      db.mission_invites.find? (fun i => i.id == iid) = some inv →
      inv.invited_user_id = cu.id →
      inv.status = InviteStatus.Pending →
      db.mission_roles.find? (fun r => r.id == inv.mission_role_id) =
        some role →
      db.missions.find? (fun m => m.id == role.mission_id) =
        some mission →
      role.assignee_user_id = some a →
      (respond_to_invite db cu iid InviteStatus.Accepted).2 =
        .error ⟨409, "This role has already been filled."⟩ ∧
      (respond_to_invite db cu iid
          InviteStatus.Accepted).1.mission_invites =
        db.mission_invites.map (fun i =>
          if i.id == iid then { i with status := InviteStatus.Declined }
          else i)) ∧
    (∀ (db : DB) (cu : User) (rid uid : Nat) (role : MissionRole)
      (mission : Mission) (u : User),
      db.mission_roles.find? (fun r => r.id == rid) = some role →
      db.missions.find? (fun m => m.id == role.mission_id) =
        some mission →
      mission.lead_user_id = cu.id →
      db.users.find? (fun v => v.id == uid) = some u →
      draft_user_for_role db cu rid uid =
        ({ db with
            mission_roles := db.mission_roles.map (fun r =>
              if r.id == rid then
                { r with assignee_user_id := some uid }
              else r),
            notifications := db.notifications ++
              [⟨db.next_id, uid,
                "You have been drafted for the role '" ++
                  role.role_description ++ "' in the mission: '" ++
                  mission.title ++ "'.",
                some ("/missions/" ++ toString mission.id), false⟩],
            next_id := db.next_id + 1 },
          .ok { role with assignee_user_id := some uid })) := by
  constructor
  · intro db cu iid inv role mission a h1 h2 h3 h4 h5 h6
    constructor <;> simp [respond_to_invite, h1, h2, h3, h4, h5, h6]
  · intro db cu rid uid role mission u h1 h2 h3 h4
    simp [draft_user_for_role, h1, h2, h3, h4]

theorem fill_overwrite_semantics_witness :
    ((respond_to_invite dbC1 userCass 20 InviteStatus.Accepted).2 =
      .error ⟨409, "This role has already been filled."⟩ ∧
      (respond_to_invite dbC1 userCass 20
          InviteStatus.Accepted).1.mission_invites =
        dbC1.mission_invites.map (fun i =>
          if i.id == 20 then { i with status := InviteStatus.Declined }
          else i)) ∧
    draft_user_for_role dbC1 userLena 10 3 =
      ({ dbC1 with
          mission_roles := dbC1.mission_roles.map (fun r =>
            if r.id == 10 then { r with assignee_user_id := some 3 }
            else r),
          notifications := dbC1.notifications ++
            [⟨dbC1.next_id, 3,
              "You have been drafted for the role '" ++ "Welder" ++
                "' in the mission: '" ++ "Harvest" ++ "'.",
              some ("/missions/" ++ toString 1), false⟩],
          next_id := dbC1.next_id + 1 },
        .ok ⟨10, 1, "Welder", 50, Proficiency.Advanced, some 3⟩) :=
  ⟨fill_overwrite_semantics.1 dbC1 userCass 20
      ⟨20, 10, 3, 2, InviteStatus.Pending, 5⟩
      ⟨10, 1, "Welder", 50, Proficiency.Advanced, some 4⟩
      ⟨1, "Harvest", none, 2, MissionStatus.Proposed⟩ 4
      rfl rfl rfl rfl rfl rfl,
    fill_overwrite_semantics.2 dbC1 userLena 10 3
      ⟨10, 1, "Welder", 50, Proficiency.Advanced, some 4⟩
      ⟨1, "Harvest", none, 2, MissionStatus.Proposed⟩
      ⟨3, "Cass", "cass@x", none, "Member", none, UserRole.Member⟩
      rfl rfl rfl rfl⟩

end Guild
